import Mathlib

/-!
A shallow embedding of `2-better-advection/Fluid.cpp` (incremental-fluids).

Real (`double`) arithmetic is modelled exactly over `ℚ`; `int` grid
dimensions are modelled by `ℕ` and coordinate/index arithmetic by `ℤ`.
The C cast `(int)x` (truncation toward zero) is modelled by `itrunc`.
Heap buffers (`double *`) are modelled by `List ℚ`; reads use `List.getD`
with default `0` and writes use `List.set` (an out-of-range C access is
undefined behavior; the claims that touch that region are settled through
the explicit index sets, not through the `getD` default).
The one libm primitive the core calls, `sqrt` from `math.h`, is external
to this repository; it is passed in as an explicit function parameter
`sqrtFn` wherever the code calls it (only `addInflow` does), and every
theorem about that path holds for an arbitrary `sqrtFn`.
-/

set_option maxRecDepth 4000000

/-- Truncation toward zero, the semantics of the C cast `(int)x`. -/
def itrunc (x : ℚ) : ℤ :=
  if 0 ≤ x then ⌊x⌋ else -⌊-x⌋

/-- The list of integers `a, a+1, ..., b-1` (empty when `b ≤ a`),
the index range of a C loop `for (i = a; i < b; i++)`. -/
def intRange (a b : ℤ) : List ℤ :=
  (List.range (b - a).toNat).map (fun i => a + (i : ℤ))

/-- Minimum of a list of rationals (`0` for the empty list). -/
def listMin : List ℚ → ℚ
  | [] => 0
  | a :: t => t.foldl min a

/-- Maximum of a list of rationals (`0` for the empty list). -/
def listMax : List ℚ → ℚ
  | [] => 0
  | a :: t => t.foldl max a

/-- Embeds `length(x, y) = sqrt(x*x + y*y)` from `Fluid.cpp`; the libm
`sqrt` is the explicit parameter `sqrtFn`. -/
def lengthOf (sqrtFn : ℚ → ℚ) (x y : ℚ) : ℚ :=
  sqrtFn (x * x + y * y)

/-- Embeds `cubicPulse(x)` from `Fluid.cpp`:
`x = min(fabs(x), 1.0); return 1.0 - x*x*(3.0 - 2.0*x)`. -/
def cubicPulse (x : ℚ) : ℚ :=
  let x := min |x| 1
  1 - x * x * (3 - 2 * x)

/-- Embeds the private 1D `FluidQuantity::lerp(a, b, x)`. -/
def lerp1 (a b x : ℚ) : ℚ :=
  a * (1 - x) + b * x

/-- Embeds the private 1D Catmull-Rom `FluidQuantity::cerp(a, b, c, d, x)`,
including its clamp of the result to the min/max of the four samples. -/
def cerp1 (a b c d x : ℚ) : ℚ :=
  let xsq := x * x
  let xcu := xsq * x
  let minV := min a (min b (min c d))
  let maxV := max a (max b (max c d))
  let t :=
    a * (0 - 0.5 * x + 1 * xsq - 0.5 * xcu) +
    b * (1 + 0 * x - 2.5 * xsq + 1.5 * xcu) +
    c * (0 + 0.5 * x + 2 * xsq - 1.5 * xcu) +
    d * (0 + 0 * x - 0.5 * xsq + 0.5 * xcu)
  min (max t minV) maxV

/-- The state of a `FluidQuantity`: buffers `_src`/`_dst`, dimensions
`_w`/`_h`, offsets `_ox`/`_oy` and cell size `_hx`. -/
structure FluidQuantity where
  src : List ℚ
  dst : List ℚ
  w : ℕ
  h : ℕ
  ox : ℚ
  oy : ℚ
  hx : ℚ
  deriving DecidableEq

namespace FluidQuantity

/-- Embeds `FluidQuantity::at(x, y)`, the read `_src[x + y*_w]`. -/
def atXY (q : FluidQuantity) (x y : ℤ) : ℚ :=
  q.src.getD (x + y * (q.w : ℤ)).toNat 0

/-- Embeds `FluidQuantity::flip()`, swapping `_src` and `_dst`. -/
def flip (q : FluidQuantity) : FluidQuantity :=
  { q with src := q.dst, dst := q.src }

/-- Embeds the 2D `FluidQuantity::lerp(x, y)`: clamp local coordinates
into `[0, dim - 1.001]`, then bilinear interpolation over the 2x2 stencil. -/
def lerp2 (q : FluidQuantity) (x y : ℚ) : ℚ :=
  let x := min (max (x - q.ox) 0) ((q.w : ℚ) - 1.001)
  let y := min (max (y - q.oy) 0) ((q.h : ℚ) - 1.001)
  let ix := itrunc x
  let iy := itrunc y
  let x := x - (ix : ℚ)
  let y := y - (iy : ℚ)
  let x00 := q.atXY ix iy
  let x10 := q.atXY (ix + 1) iy
  let x01 := q.atXY ix (iy + 1)
  let x11 := q.atXY (ix + 1) (iy + 1)
  lerp1 (lerp1 x00 x10 x) (lerp1 x01 x11 x) y

/-- Embeds the 2D `FluidQuantity::cerp(x, y)`: clamp local coordinates,
gather the edge-clamped 4x4 stencil, interpolate per row then across rows. -/
def cerp2 (q : FluidQuantity) (x y : ℚ) : ℚ :=
  let x := min (max (x - q.ox) 0) ((q.w : ℚ) - 1.001)
  let y := min (max (y - q.oy) 0) ((q.h : ℚ) - 1.001)
  let ix := itrunc x
  let iy := itrunc y
  let x := x - (ix : ℚ)
  let y := y - (iy : ℚ)
  let x0 := max (ix - 1) 0
  let x1 := ix
  let x2 := ix + 1
  let x3 := min (ix + 2) ((q.w : ℤ) - 1)
  let y0 := max (iy - 1) 0
  let y1 := iy
  let y2 := iy + 1
  let y3 := min (iy + 2) ((q.h : ℤ) - 1)
  let q0 := cerp1 (q.atXY x0 y0) (q.atXY x1 y0) (q.atXY x2 y0) (q.atXY x3 y0) x
  let q1 := cerp1 (q.atXY x0 y1) (q.atXY x1 y1) (q.atXY x2 y1) (q.atXY x3 y1) x
  let q2 := cerp1 (q.atXY x0 y2) (q.atXY x1 y2) (q.atXY x2 y2) (q.atXY x3 y2) x
  let q3 := cerp1 (q.atXY x0 y3) (q.atXY x1 y3) (q.atXY x2 y3) (q.atXY x3 y3) x
  cerp1 q0 q1 q2 q3 y

/-- Embeds `FluidQuantity::rungeKutta3(x, y, timestep, u, v)` exactly as
written in the source: note that `lastU`/`lastV` are sampled WITHOUT the
division by `_hx` that `firstU`/`firstV` and `midU`/`midV` receive. -/
def rungeKutta3 (q : FluidQuantity) (x y dt : ℚ) (u v : FluidQuantity) : ℚ × ℚ :=
  let firstU := u.lerp2 x y / q.hx
  let firstV := v.lerp2 x y / q.hx
  let midX := x - 0.5 * dt * firstU
  let midY := y - 0.5 * dt * firstV
  let midU := u.lerp2 midX midY / q.hx
  let midV := v.lerp2 midX midY / q.hx
  let lastX := x - 0.75 * dt * midU
  let lastY := y - 0.75 * dt * midV
  let lastU := u.lerp2 lastX lastY
  let lastV := v.lerp2 lastX lastY
  (x - dt * ((2/9) * firstU + (3/9) * midU + (4/9) * lastU),
   y - dt * ((2/9) * firstV + (3/9) * midV + (4/9) * lastV))

/-- The backward trace as claim C1 and the spec describe it, for comparison
with `rungeKutta3`: all three velocity evaluations are converted to grid
units by dividing the sampled world velocity by the cell size. -/
def rungeKutta3Claim (q : FluidQuantity) (x y dt : ℚ) (u v : FluidQuantity) : ℚ × ℚ :=
  let firstU := u.lerp2 x y / q.hx
  let firstV := v.lerp2 x y / q.hx
  let midX := x - 0.5 * dt * firstU
  let midY := y - 0.5 * dt * firstV
  let midU := u.lerp2 midX midY / q.hx
  let midV := v.lerp2 midX midY / q.hx
  let lastX := x - 0.75 * dt * midU
  let lastY := y - 0.75 * dt * midV
  let lastU := u.lerp2 lastX lastY / q.hx
  let lastV := v.lerp2 lastX lastY / q.hx
  (x - dt * ((2/9) * firstU + (3/9) * midU + (4/9) * lastU),
   y - dt * ((2/9) * firstV + (3/9) * midV + (4/9) * lastV))

/-- Embeds `FluidQuantity::advect(timestep, u, v)`: for each grid point in
row-major order, trace back with `rungeKutta3` and write the cubic sample
of the traced position into `_dst`. -/
def advect (q : FluidQuantity) (dt : ℚ) (u v : FluidQuantity) : FluidQuantity :=
  { q with dst := (List.range (q.w * q.h)).map (fun idx =>
      let ix := idx % q.w
      let iy := idx / q.w
      let x := (ix : ℚ) + q.ox
      let y := (iy : ℚ) + q.oy
      let p := q.rungeKutta3 x y dt u v
      q.cerp2 p.1 p.2) }

/-- The cell coordinates `(x, y)` visited by the two `addInflow` loops, in
loop order. Note the upper bound of the inner `x` loop in the source is
`min(ix1, _h)` — the field HEIGHT — not `min(ix1, _w)`. -/
def addInflowCells (q : FluidQuantity) (x0 y0 x1 y1 : ℚ) : List (ℤ × ℤ) :=
  let ix0 := itrunc (x0 / q.hx - q.ox)
  let iy0 := itrunc (y0 / q.hx - q.oy)
  let ix1 := itrunc (x1 / q.hx - q.ox)
  let iy1 := itrunc (y1 / q.hx - q.oy)
  (intRange (max iy0 0) (min iy1 (q.h : ℤ))).flatMap (fun y =>
    (intRange (max ix0 0) (min ix1 (q.h : ℤ))).map (fun x => (x, y)))

/-- The loop body of `FluidQuantity::addInflow` at one cell `c = (x, y)`:
compute the cubic-pulse falloff of the normalized radial distance and
overwrite `_src[x + y*_w]` only when the scaled value's magnitude strictly
exceeds the stored one's. -/
def addInflowStep (sqrtFn : ℚ → ℚ) (hx x0 y0 x1 y1 v : ℚ) (w : ℕ)
    (buf : List ℚ) (c : ℤ × ℤ) : List ℚ :=
  let l := lengthOf sqrtFn
    ((2 * ((c.1 : ℚ) + 0.5) * hx - (x0 + x1)) / (x1 - x0))
    ((2 * ((c.2 : ℚ) + 0.5) * hx - (y0 + y1)) / (y1 - y0))
  let vi := cubicPulse l * v
  let idx := (c.1 + c.2 * (w : ℤ)).toNat
  if |buf.getD idx 0| < |vi| then buf.set idx vi else buf

/-- Embeds `FluidQuantity::addInflow(x0, y0, x1, y1, v)`: fold the loop
body over the visited cells in loop order. -/
def addInflow (sqrtFn : ℚ → ℚ) (q : FluidQuantity) (x0 y0 x1 y1 v : ℚ) : FluidQuantity :=
  let src := (q.addInflowCells x0 y0 x1 y1).foldl
    (addInflowStep sqrtFn q.hx x0 y0 x1 y1 v q.w) q.src
  { q with src := src }

end FluidQuantity

/-- Embeds the enum `ITER_TYPE` from `Fluid.cpp`. -/
inductive ITER_TYPE where
  | ITER_GAUSS_SEIDEL
  | ITER_JACOBI
  deriving DecidableEq

/-- Read-modify-write of one buffer entry, the shape of a C statement
`buf[i] op= e`. -/
def updAt (l : List ℚ) (i : ℕ) (f : ℚ → ℚ) : List ℚ :=
  l.set i (f (l.getD i 0))

/-- The diagonal/off-diagonal accumulation and new-pressure formula shared
verbatim by `FluidSolver::project` and `FluidSolver::project_jacobi` at a
cell `idx` (with `x = idx % w`, `y = idx / w`). -/
def jacobiNewP (w h : ℕ) (scale : ℚ) (r p : List ℚ) (idx : ℕ) : ℚ :=
  let x := idx % w
  let y := idx / w
  let dio : ℚ × ℚ := (0, 0)
  let dio := if 0 < x then (dio.1 + scale, dio.2 - scale * p.getD (idx - 1) 0) else dio
  let dio := if 0 < y then (dio.1 + scale, dio.2 - scale * p.getD (idx - w) 0) else dio
  let dio := if (x : ℤ) < (w : ℤ) - 1 then (dio.1 + scale, dio.2 - scale * p.getD (idx + 1) 0) else dio
  let dio := if (y : ℤ) < (h : ℤ) - 1 then (dio.1 + scale, dio.2 - scale * p.getD (idx + w) 0) else dio
  (r.getD idx 0 - dio.2) / dio.1

/-- One double-buffered sweep of `FluidSolver::project_jacobi`: the new
pressure buffer (`_p2`, copied back into `_p` by the `memcpy`) and the
sweep's `maxDelta`. -/
def jacobiSweep (w h : ℕ) (scale : ℚ) (r p : List ℚ) : List ℚ × ℚ :=
  ((List.range (w * h)).map (fun idx => jacobiNewP w h scale r p idx),
   (List.range (w * h)).foldl
     (fun m idx => max m |p.getD idx 0 - jacobiNewP w h scale r p idx|) 0)

/-- The pressure buffer after `n` unconditional Jacobi sweeps. -/
def sweepN (w h : ℕ) (scale : ℚ) (r : List ℚ) : ℕ → List ℚ → List ℚ
  | 0, p => p
  | n + 1, p => sweepN w h scale r n (jacobiSweep w h scale r p).1

/-- The iteration of `FluidSolver::project_jacobi`: sweep, copy back, and
return early as soon as a sweep's `maxDelta` drops below `1e-5`; otherwise
run out the budget. (The exhaustion branch only prints a diagnostic in the
source; in both branches the routine returns normally.) -/
def jacobiSolve (w h : ℕ) (scale : ℚ) (r : List ℚ) : ℕ → List ℚ → List ℚ
  | 0, p => p
  | limit + 1, p =>
    let s := jacobiSweep w h scale r p
    if s.2 < 1e-5 then s.1 else jacobiSolve w h scale r limit s.1

/-- One in-place sweep of `FluidSolver::project` (Gauss-Seidel): each cell
update reads the partially updated pressure buffer. -/
def gsSweep (w h : ℕ) (scale : ℚ) (r p : List ℚ) : List ℚ × ℚ :=
  (List.range (w * h)).foldl (fun st idx =>
    let newP := jacobiNewP w h scale r st.1 idx
    (st.1.set idx newP, max st.2 |st.1.getD idx 0 - newP|)) (p, 0)

/-- The iteration of `FluidSolver::project`, same stopping rule as
`jacobiSolve`. -/
def gsSolve (w h : ℕ) (scale : ℚ) (r : List ℚ) : ℕ → List ℚ → List ℚ
  | 0, p => p
  | limit + 1, p =>
    let s := gsSweep w h scale r p
    if s.2 < 1e-5 then s.1 else gsSolve w h scale r limit s.1

/-- The state of a `FluidSolver`: the three fields, dimensions, cell size,
fluid density, the right-hand-side and pressure buffers, and the iteration
discipline selected at construction. -/
structure FluidSolver where
  d : FluidQuantity
  u : FluidQuantity
  v : FluidQuantity
  w : ℕ
  h : ℕ
  hx : ℚ
  density : ℚ
  r : List ℚ
  p : List ℚ
  p2 : List ℚ
  iteration_type : ITER_TYPE
  deriving DecidableEq

namespace FluidSolver

/-- Embeds `FluidSolver::buildRhs()`: the negated discrete divergence,
scaled by `1/_hx`, written into `_r` cell by cell. -/
def buildRhs (s : FluidSolver) : FluidSolver :=
  let scale := 1 / s.hx
  let rhs := (List.range (s.w * s.h)).map (fun idx =>
      let x : ℤ := (idx % s.w : ℕ);
      let y : ℤ := (idx / s.w : ℕ);
      -scale * (s.u.atXY (x + 1) y - s.u.atXY x y +
                s.v.atXY x (y + 1) - s.v.atXY x y))
  { s with r := rhs }

/-- Embeds `FluidSolver::project_jacobi(limit, timestep)` acting on the
solver state. The scratch `_p2` holds the last sweep's output in the
source and is never read before being rewritten; it is modelled inside
`jacobiSweep` and left untouched here. -/
def projectJacobi (s : FluidSolver) (limit : ℕ) (dt : ℚ) : FluidSolver :=
  let scale := dt / (s.density * s.hx * s.hx)
  { s with p := jacobiSolve s.w s.h scale s.r limit s.p }

/-- Embeds `FluidSolver::project(limit, timestep)` (Gauss-Seidel). -/
def project (s : FluidSolver) (limit : ℕ) (dt : ℚ) : FluidSolver :=
  let scale := dt / (s.density * s.hx * s.hx)
  { s with p := gsSolve s.w s.h scale s.r limit s.p }

/-- The loop body of `FluidSolver::applyPressure` at one cell `idx`: the
four face updates `u(x,y) -= pc`, `u(x+1,y) += pc`, `v(x,y) -= pc`,
`v(x,y+1) += pc`, where `pc = scale*_p[idx]` (recall `_u` has row stride
`w + 1` and `_v` has row stride `w`). -/
def applyPressureStep (scale : ℚ) (p : List ℚ) (w : ℕ)
    (uv : List ℚ × List ℚ) (idx : ℕ) : List ℚ × List ℚ :=
  let x := idx % w
  let y := idx / w
  let pc := scale * p.getD idx 0
  let ub := updAt uv.1 (x + y * (w + 1)) (fun t => t - pc)
  let ub := updAt ub (x + 1 + y * (w + 1)) (fun t => t + pc)
  let vb := updAt uv.2 (x + y * w) (fun t => t - pc)
  let vb := updAt vb (x + (y + 1) * w) (fun t => t + pc)
  (ub, vb)

/-- Embeds `FluidSolver::applyPressure(timestep)`: subtract the scaled
pressure gradient at the four faces of every cell, then force every
domain-boundary face of `_u` and `_v` to exactly zero. -/
def applyPressure (s : FluidSolver) (dt : ℚ) : FluidSolver :=
  let scale := dt / (s.density * s.hx)
  let uv := (List.range (s.w * s.h)).foldl
    (applyPressureStep scale s.p s.w) (s.u.src, s.v.src)
  let ub := (List.range s.h).foldl
    (fun b y => (b.set (y * (s.w + 1)) 0).set (s.w + y * (s.w + 1)) 0) uv.1
  let vb := (List.range s.w).foldl
    (fun b x => (b.set x 0).set (x + s.h * s.w) 0) uv.2
  { s with u := { s.u with src := ub }, v := { s.v with src := vb } }

/-- Embeds the constructor `FluidSolver::FluidSolver(w, h, density)`:
`_hx = 1.0/min(w, h)`, the three fields at their staggered offsets, and
zeroed `_p` (and `_p2`, since the constructor pins `ITER_JACOBI`). The
buffers the C code leaves uninitialized but always writes before reading
(`_dst` of each field and `_r`) are modelled as zeros. -/
def construct (w h : ℕ) (density : ℚ) : FluidSolver :=
  let hx : ℚ := 1 / ((min w h : ℕ) : ℚ)
  { d := ⟨List.replicate (w * h) 0, List.replicate (w * h) 0, w, h, 0.5, 0.5, hx⟩
  , u := ⟨List.replicate ((w + 1) * h) 0, List.replicate ((w + 1) * h) 0, w + 1, h, 0, 0.5, hx⟩
  , v := ⟨List.replicate (w * (h + 1)) 0, List.replicate (w * (h + 1)) 0, w, h + 1, 0.5, 0, hx⟩
  , w := w, h := h, hx := hx, density := density
  , r := List.replicate (w * h) 0
  , p := List.replicate (w * h) 0
  , p2 := List.replicate (w * h) 0
  , iteration_type := ITER_TYPE.ITER_JACOBI }

/-- Embeds `FluidSolver::update(timestep)`: divergence, pressure solve
(through the discipline selected in the constructor), projection, the
three advections against the one projected velocity snapshot, and the
three flips. -/
def update (s : FluidSolver) (dt : ℚ) : FluidSolver :=
  let s1 := s.buildRhs
  let s2 := if s1.iteration_type = ITER_TYPE.ITER_JACOBI
            then s1.projectJacobi 600 dt else s1.project 600 dt
  let s3 := s2.applyPressure dt
  let d := s3.d.advect dt s3.u s3.v
  let u := s3.u.advect dt s3.u s3.v
  let v := s3.v.advect dt s3.u s3.v
  { s3 with d := d.flip, u := u.flip, v := v.flip }

/-- Embeds `FluidSolver::addInflow(x, y, w, h, d, u, v)`, forwarding one
rectangle to the three fields. -/
def addInflow (sqrtFn : ℚ → ℚ) (s : FluidSolver)
    (x y rw rh dv uv vv : ℚ) : FluidSolver :=
  { s with d := s.d.addInflow sqrtFn x y (x + rw) (y + rh) dv
         , u := s.u.addInflow sqrtFn x y (x + rw) (y + rh) uv
         , v := s.v.addInflow sqrtFn x y (x + rw) (y + rh) vv }

/-- Every domain-boundary face of the two velocity fields holds exactly
zero: `u` on the columns `x = 0` and `x = width`, `v` on the rows `y = 0`
and `y = height`. -/
def boundaryFacesZero (s : FluidSolver) : Prop :=
  (∀ y < s.h, s.u.src.getD (y * (s.w + 1)) 0 = 0 ∧
              s.u.src.getD (s.w + y * (s.w + 1)) 0 = 0) ∧
  (∀ x < s.w, s.v.src.getD x 0 = 0 ∧
              s.v.src.getD (x + s.h * s.w) 0 = 0)

instance (s : FluidSolver) : Decidable (boundaryFacesZero s) := by
  unfold boundaryFacesZero; infer_instance

end FluidSolver

/-- A concrete 2x2 solver state holding a divergence-free vortex: boundary
faces of `u` and `v` are zero, the four interior faces circulate. -/
def vortexState : FluidSolver :=
  { d := ⟨List.replicate 4 0, List.replicate 4 0, 2, 2, 0.5, 0.5, 1/2⟩
  , u := ⟨[0, 1, 0, 0, -1, 0], List.replicate 6 0, 3, 2, 0, 0.5, 1/2⟩
  , v := ⟨[0, 0, -1, 1, 0, 0], List.replicate 6 0, 2, 3, 0.5, 0, 1/2⟩
  , w := 2, h := 2, hx := 1/2, density := 1
  , r := List.replicate 4 0, p := List.replicate 4 0, p2 := List.replicate 4 0
  , iteration_type := ITER_TYPE.ITER_JACOBI }

/-- A 3x3 field holding the constant value 1 everywhere (cell size 1/2). -/
def onesField : FluidQuantity :=
  ⟨List.replicate 9 1, List.replicate 9 0, 3, 3, 0.5, 0.5, 1/2⟩

/-- A 3x3 field holding 0 everywhere (cell size 1/2). -/
def zerosField : FluidQuantity :=
  ⟨List.replicate 9 0, List.replicate 9 0, 3, 3, 0.5, 0, 1/2⟩

/-- A field shaped like the `_v` quantity of a solver taller than it is
wide: width 2, height 4, so `_w < _h`. -/
def vLikeField : FluidQuantity :=
  ⟨List.replicate 8 0, List.replicate 8 0, 2, 4, 0.5, 0, 1⟩

/-- A 2x2 density-like field with four distinct values. -/
def edgeField : FluidQuantity :=
  ⟨[0, 1, 2, 3], [0, 0, 0, 0], 2, 2, 0.5, 0.5, 1/2⟩

/-- A freshly constructed 2x2 solver with fluid density 1. -/
def solver22 : FluidSolver :=
  FluidSolver.construct 2 2 1

/-!
Helper lemmas about buffers (`List ℚ`).
-/

theorem getD_set_self {l : List ℚ} {i : ℕ} (h : i < l.length) (a : ℚ) :
    (l.set i a).getD i 0 = a := by
  simp [List.getD_eq_getElem?_getD, List.getElem?_set_self', List.getElem?_eq_getElem h]

theorem getD_set_ne {l : List ℚ} {i j : ℕ} (h : i ≠ j) (a : ℚ) :
    (l.set i a).getD j 0 = l.getD j 0 := by
  simp [List.getD_eq_getElem?_getD, List.getElem?_set_ne h]

theorem length_foldl_of_preserve {α : Type} {f : List ℚ → α → List ℚ}
    (hf : ∀ b c, (f b c).length = b.length) :
    ∀ (l : List α) (b : List ℚ), (l.foldl f b).length = b.length := by
  intro l
  induction l with
  | nil => intro b; rfl
  | cons c t ih => intro b; rw [List.foldl_cons, ih, hf]

theorem foldl_min_le : ∀ (t : List ℚ) (a : ℚ),
    (∀ x ∈ t, t.foldl min a ≤ x) ∧ t.foldl min a ≤ a := by
  intro t
  induction t with
  | nil => intro a; exact ⟨by simp, le_rfl⟩
  | cons c t ih =>
    intro a
    refine ⟨?_, le_trans (ih (min a c)).2 (min_le_left a c)⟩
    intro x hx
    rcases List.mem_cons.1 hx with rfl | hx
    · exact le_trans (ih (min a x)).2 (min_le_right a x)
    · exact (ih (min a c)).1 x hx

theorem le_foldl_max : ∀ (t : List ℚ) (a : ℚ),
    (∀ x ∈ t, x ≤ t.foldl max a) ∧ a ≤ t.foldl max a := by
  intro t
  induction t with
  | nil => intro a; exact ⟨by simp, le_rfl⟩
  | cons c t ih =>
    intro a
    refine ⟨?_, le_trans (le_max_left a c) (ih (max a c)).2⟩
    intro x hx
    rcases List.mem_cons.1 hx with rfl | hx
    · exact le_trans (le_max_right a x) (ih (max a x)).2
    · exact (ih (max a c)).1 x hx

theorem listMin_le {l : List ℚ} : ∀ x ∈ l, listMin l ≤ x := by
  cases l with
  | nil => simp
  | cons a t =>
    intro x hx
    rcases List.mem_cons.1 hx with rfl | hx
    · exact (foldl_min_le t x).2
    · exact (foldl_min_le t a).1 x hx

theorem le_listMax {l : List ℚ} : ∀ x ∈ l, x ≤ listMax l := by
  cases l with
  | nil => simp
  | cons a t =>
    intro x hx
    rcases List.mem_cons.1 hx with rfl | hx
    · exact (le_foldl_max t x).2
    · exact (le_foldl_max t a).1 x hx

theorem getD_mem {l : List ℚ} {i : ℕ} (h : i < l.length) : l.getD i 0 ∈ l := by
  rw [List.getD_eq_getElem l 0 h]
  exact List.getElem_mem h

theorem getD_set_zero_cases (l : List ℚ) (j i : ℕ) :
    (l.set j (0:ℚ)).getD i 0 = l.getD i 0 ∨ (l.set j (0:ℚ)).getD i 0 = 0 := by
  by_cases hij : j = i
  · subst hij
    by_cases hlen : j < l.length
    · exact Or.inr (getD_set_self hlen 0)
    · rw [List.set_eq_of_length_le (Nat.le_of_not_lt hlen)]
      exact Or.inl rfl
  · exact Or.inl (getD_set_ne hij 0)

theorem step_setzero_at (b : List ℚ) (j k i : ℕ) (hi : i < b.length)
    (h : i = j ∨ i = k) : ((b.set j (0:ℚ)).set k 0).getD i 0 = 0 := by
  by_cases hik : k = i
  · subst hik
    exact getD_set_self (by simpa using hi) 0
  · rw [getD_set_ne hik 0]
    rcases h with rfl | rfl
    · exact getD_set_self hi 0
    · exact absurd rfl hik

theorem foldl_setzero_preserve (f g : ℕ → ℕ) (l : List ℕ) :
    ∀ (b : List ℚ) (i : ℕ), b.getD i 0 = 0 →
      (l.foldl (fun b y => (b.set (f y) 0).set (g y) 0) b).getD i 0 = 0 := by
  induction l with
  | nil => intro b i h; exact h
  | cons c t ih =>
    intro b i h
    rw [List.foldl_cons]
    apply ih
    rcases getD_set_zero_cases (b.set (f c) 0) (g c) i with h2 | h2
    · rw [h2]
      rcases getD_set_zero_cases b (f c) i with h1 | h1
      · rw [h1]; exact h
      · exact h1
    · exact h2

theorem foldl_setzero_length (f g : ℕ → ℕ) (l : List ℕ) (b : List ℚ) :
    (l.foldl (fun b y => (b.set (f y) 0).set (g y) 0) b).length = b.length :=
  length_foldl_of_preserve (fun b c => by simp) l b

theorem foldl_setzero_mem (f g : ℕ → ℕ) (l : List ℕ) :
    ∀ (b : List ℚ) (i y : ℕ), y ∈ l → (i = f y ∨ i = g y) → i < b.length →
      (l.foldl (fun b y => (b.set (f y) 0).set (g y) 0) b).getD i 0 = 0 := by
  induction l with
  | nil => intro b i y hy; exact absurd hy (List.not_mem_nil y)
  | cons c t ih =>
    intro b i y hy hfg hi
    rw [List.foldl_cons]
    rcases List.mem_cons.1 hy with rfl | hy
    · exact foldl_setzero_preserve f g t _ i (step_setzero_at b (f y) (g y) i hi hfg)
    · exact ih _ i y hy hfg (by simpa using hi)

theorem pair_foldl_lengths {f : (List ℚ × List ℚ) → ℕ → (List ℚ × List ℚ)}
    (hf : ∀ p c, ((f p c).1.length = p.1.length ∧ (f p c).2.length = p.2.length)) :
    ∀ (l : List ℕ) (p : List ℚ × List ℚ),
      (l.foldl f p).1.length = p.1.length ∧ (l.foldl f p).2.length = p.2.length := by
  intro l
  induction l with
  | nil => intro p; exact ⟨rfl, rfl⟩
  | cons c t ih =>
    intro p
    rw [List.foldl_cons]
    exact ⟨by rw [(ih (f p c)).1, (hf p c).1], by rw [(ih (f p c)).2, (hf p c).2]⟩

theorem updAt_length (l : List ℚ) (i : ℕ) (f : ℚ → ℚ) :
    (updAt l i f).length = l.length := by
  simp [updAt]

theorem set_if_bigger_pointwise (buf : List ℚ) (idx : ℕ) (vi : ℚ) (i : ℕ) :
    (if |buf.getD idx 0| < |vi| then buf.set idx vi else buf).getD i 0 = buf.getD i 0 ∨
    |buf.getD i 0| <
      |(if |buf.getD idx 0| < |vi| then buf.set idx vi else buf).getD i 0| := by
  by_cases hc : |buf.getD idx 0| < |vi|
  · rw [if_pos hc]
    by_cases hii : idx = i
    · subst hii
      by_cases hlen : idx < buf.length
      · rw [getD_set_self hlen]
        exact Or.inr hc
      · rw [List.set_eq_of_length_le (Nat.le_of_not_lt hlen)]
        exact Or.inl rfl
    · exact Or.inl (getD_set_ne hii vi)
  · rw [if_neg hc]
    exact Or.inl rfl

theorem addInflowStep_pointwise (sqrtFn : ℚ → ℚ) (hx x0 y0 x1 y1 v : ℚ) (w : ℕ)
    (buf : List ℚ) (c : ℤ × ℤ) (i : ℕ) :
    (FluidQuantity.addInflowStep sqrtFn hx x0 y0 x1 y1 v w buf c).getD i 0 = buf.getD i 0 ∨
    |buf.getD i 0| <
      |(FluidQuantity.addInflowStep sqrtFn hx x0 y0 x1 y1 v w buf c).getD i 0| := by
  simp only [FluidQuantity.addInflowStep]
  exact set_if_bigger_pointwise buf _ _ i

theorem foldl_addInflowStep_pointwise (sqrtFn : ℚ → ℚ) (hx x0 y0 x1 y1 v : ℚ)
    (w : ℕ) (cells : List (ℤ × ℤ)) :
    ∀ (buf : List ℚ) (i : ℕ),
      (cells.foldl (FluidQuantity.addInflowStep sqrtFn hx x0 y0 x1 y1 v w) buf).getD i 0 =
        buf.getD i 0 ∨
      |buf.getD i 0| <
        |(cells.foldl (FluidQuantity.addInflowStep sqrtFn hx x0 y0 x1 y1 v w) buf).getD i 0| := by
  induction cells with
  | nil => intro buf i; exact Or.inl rfl
  | cons c t ih =>
    intro buf i
    rw [List.foldl_cons]
    rcases ih (FluidQuantity.addInflowStep sqrtFn hx x0 y0 x1 y1 v w buf c) i with h2 | h2 <;>
      rcases addInflowStep_pointwise sqrtFn hx x0 y0 x1 y1 v w buf c i with h1 | h1
    · exact Or.inl (h2.trans h1)
    · exact Or.inr (by rw [h2]; exact h1)
    · exact Or.inr (by rw [← h1]; exact h2)
    · exact Or.inr (lt_trans h1 h2)

theorem sweepN_succ (w h : ℕ) (scale : ℚ) (r : List ℚ) (n : ℕ) (p : List ℚ) :
    sweepN w h scale r (n + 1) p = sweepN w h scale r n (jacobiSweep w h scale r p).1 :=
  rfl

theorem jacobiSolve_succ (w h : ℕ) (scale : ℚ) (r : List ℚ) (L : ℕ) (p : List ℚ) :
    jacobiSolve w h scale r (L + 1) p =
      if (jacobiSweep w h scale r p).2 < 1e-5 then (jacobiSweep w h scale r p).1
      else jacobiSolve w h scale r L (jacobiSweep w h scale r p).1 :=
  rfl

theorem jacobiSolve_char (w h : ℕ) (scale : ℚ) (r : List ℚ) :
    ∀ (L : ℕ) (p : List ℚ), ∃ n, n ≤ L ∧
      jacobiSolve w h scale r L p = sweepN w h scale r n p ∧
      (∀ k, k + 1 < n →
        ¬ (jacobiSweep w h scale r (sweepN w h scale r k p)).2 < 1e-5) ∧
      (n < L → ∃ m, n = m + 1 ∧
        (jacobiSweep w h scale r (sweepN w h scale r m p)).2 < 1e-5) := by
  intro L
  induction L with
  | zero =>
    intro p
    exact ⟨0, le_rfl, rfl, fun k hk => absurd hk (by omega), fun hlt => absurd hlt (by omega)⟩
  | succ L ih =>
    intro p
    by_cases hd : (jacobiSweep w h scale r p).2 < 1e-5
    · refine ⟨1, Nat.succ_le_succ (Nat.zero_le L), ?_, ?_, ?_⟩
      · rw [jacobiSolve_succ, if_pos hd]; rfl
      · intro k hk; exact absurd hk (by omega)
      · intro _; exact ⟨0, rfl, hd⟩
    · obtain ⟨n, hnL, heq, hnot, hearly⟩ := ih (jacobiSweep w h scale r p).1
      refine ⟨n + 1, Nat.succ_le_succ hnL, ?_, ?_, ?_⟩
      · rw [jacobiSolve_succ, if_neg hd, heq, sweepN_succ]
      · intro k hk
        cases k with
        | zero => simpa [sweepN] using hd
        | succ k' =>
          rw [sweepN_succ]
          exact hnot k' (by omega)
      · intro hlt
        obtain ⟨m, hm, hmd⟩ := hearly (by omega)
        exact ⟨m + 1, by omega, by rw [sweepN_succ]; exact hmd⟩

theorem itrunc_of_nonneg {x : ℚ} (h : 0 ≤ x) : itrunc x = ⌊x⌋ :=
  if_pos h

theorem itrunc_natCast (n : ℕ) : itrunc (n : ℚ) = n := by
  rw [itrunc_of_nonneg (by positivity), Int.floor_natCast]

theorem lerp1_zero (a b : ℚ) : lerp1 a b 0 = a := by
  simp [lerp1]

theorem clamp_trunc_bounds (t : ℚ) (w : ℕ) (hw : 2 ≤ w) :
    0 ≤ itrunc (min (max t 0) ((w : ℚ) - 1.001)) ∧
    itrunc (min (max t 0) ((w : ℚ) - 1.001)) ≤ (w : ℤ) - 2 := by
  have hw2 : (2 : ℚ) ≤ (w : ℚ) := by exact_mod_cast hw
  have h0 : 0 ≤ min (max t 0) ((w : ℚ) - 1.001) :=
    le_min (le_max_right t 0) (by linarith)
  rw [itrunc_of_nonneg h0]
  refine ⟨Int.floor_nonneg.2 h0, ?_⟩
  have hlt : ⌊min (max t 0) ((w : ℚ) - 1.001)⌋ < (w : ℤ) - 1 := by
    apply Int.floor_lt.2
    push_cast
    calc min (max t 0) ((w : ℚ) - 1.001) ≤ (w : ℚ) - 1.001 := min_le_right _ _
      _ < (w : ℚ) - 1 := by linarith
  omega

theorem atXY_mem_src {q : FluidQuantity} (hlen : q.src.length = q.w * q.h)
    {x y : ℤ} (hx0 : 0 ≤ x) (hxw : x < (q.w : ℤ)) (hy0 : 0 ≤ y) (hyh : y < (q.h : ℤ)) :
    q.atXY x y ∈ q.src := by
  unfold FluidQuantity.atXY
  apply getD_mem
  rw [hlen]
  have h1 : x + y * (q.w : ℤ) < (q.w : ℤ) * (q.h : ℤ) := by
    calc x + y * (q.w : ℤ) < (q.w : ℤ) + y * (q.w : ℤ) := by linarith
      _ = (y + 1) * (q.w : ℤ) := by ring
      _ ≤ (q.h : ℤ) * (q.w : ℤ) :=
          mul_le_mul_of_nonneg_right (by omega) (by positivity)
      _ = (q.w : ℤ) * (q.h : ℤ) := mul_comm _ _
  have h2 : (0 : ℤ) ≤ x + y * (q.w : ℤ) :=
    add_nonneg hx0 (mul_nonneg hy0 (by positivity))
  have h3 : ((q.w : ℤ) * (q.h : ℤ)).toNat = q.w * q.h := by
    rw [← Nat.cast_mul, Int.toNat_natCast]
  omega

theorem cerp1_bounds {lo hi a b c d : ℚ} (x : ℚ)
    (ha : lo ≤ a ∧ a ≤ hi) (hb : lo ≤ b ∧ b ≤ hi)
    (hc : lo ≤ c ∧ c ≤ hi) (hd : lo ≤ d ∧ d ≤ hi) :
    lo ≤ cerp1 a b c d x ∧ cerp1 a b c d x ≤ hi := by
  simp only [cerp1]
  constructor
  · exact le_min
      (le_trans (le_min ha.1 (le_min hb.1 (le_min hc.1 hd.1))) (le_max_right _ _))
      (le_trans ha.1 (le_max_left _ _))
  · exact le_trans (min_le_right _ _) (max_le ha.2 (max_le hb.2 (max_le hc.2 hd.2)))

theorem cerp2_bounds {q : FluidQuantity} (hw : 2 ≤ q.w) (hh : 2 ≤ q.h)
    (hlen : q.src.length = q.w * q.h) (x y : ℚ) :
    listMin q.src ≤ q.cerp2 x y ∧ q.cerp2 x y ≤ listMax q.src := by
  have hs : ∀ (a b : ℤ), 0 ≤ a → a < (q.w : ℤ) → 0 ≤ b → b < (q.h : ℤ) →
      listMin q.src ≤ q.atXY a b ∧ q.atXY a b ≤ listMax q.src :=
    fun a b ha0 haw hb0 hbh =>
      ⟨listMin_le _ (atXY_mem_src hlen ha0 haw hb0 hbh),
       le_listMax _ (atXY_mem_src hlen ha0 haw hb0 hbh)⟩
  obtain ⟨hix1, hix2⟩ := clamp_trunc_bounds (x - q.ox) q.w hw
  obtain ⟨hiy1, hiy2⟩ := clamp_trunc_bounds (y - q.oy) q.h hh
  have hwZ : (2 : ℤ) ≤ (q.w : ℤ) := by exact_mod_cast hw
  have hhZ : (2 : ℤ) ≤ (q.h : ℤ) := by exact_mod_cast hh
  simp only [FluidQuantity.cerp2]
  set ix := itrunc (min (max (x - q.ox) 0) ((q.w : ℚ) - 1.001)) with hix_def
  set iy := itrunc (min (max (y - q.oy) 0) ((q.h : ℚ) - 1.001)) with hiy_def
  have H : ∀ (a b : ℤ),
      (a = max (ix - 1) 0 ∨ a = ix ∨ a = ix + 1 ∨ a = min (ix + 2) ((q.w : ℤ) - 1)) →
      (b = max (iy - 1) 0 ∨ b = iy ∨ b = iy + 1 ∨ b = min (iy + 2) ((q.h : ℤ) - 1)) →
      listMin q.src ≤ q.atXY a b ∧ q.atXY a b ≤ listMax q.src := by
    intro a b ha hb
    apply hs
    · rcases ha with rfl | rfl | rfl | rfl <;> omega
    · rcases ha with rfl | rfl | rfl | rfl <;> omega
    · rcases hb with rfl | rfl | rfl | rfl <;> omega
    · rcases hb with rfl | rfl | rfl | rfl <;> omega
  have hq : ∀ (b : ℤ),
      (b = max (iy - 1) 0 ∨ b = iy ∨ b = iy + 1 ∨ b = min (iy + 2) ((q.h : ℤ) - 1)) →
      ∀ (t : ℚ),
      listMin q.src ≤ cerp1 (q.atXY (max (ix - 1) 0) b) (q.atXY ix b)
          (q.atXY (ix + 1) b) (q.atXY (min (ix + 2) ((q.w : ℤ) - 1)) b) t ∧
        cerp1 (q.atXY (max (ix - 1) 0) b) (q.atXY ix b)
          (q.atXY (ix + 1) b) (q.atXY (min (ix + 2) ((q.w : ℤ) - 1)) b) t ≤
          listMax q.src :=
    fun b hb t => cerp1_bounds t
      (H _ _ (Or.inl rfl) hb)
      (H _ _ (Or.inr (Or.inl rfl)) hb)
      (H _ _ (Or.inr (Or.inr (Or.inl rfl))) hb)
      (H _ _ (Or.inr (Or.inr (Or.inr rfl))) hb)
  exact cerp1_bounds _
    (hq _ (Or.inl rfl) _)
    (hq _ (Or.inr (Or.inl rfl)) _)
    (hq _ (Or.inr (Or.inr (Or.inl rfl))) _)
    (hq _ (Or.inr (Or.inr (Or.inr rfl))) _)

theorem applyPressureStep_lengths (scale : ℚ) (p : List ℚ) (w : ℕ)
    (uv : List ℚ × List ℚ) (idx : ℕ) :
    (FluidSolver.applyPressureStep scale p w uv idx).1.length = uv.1.length ∧
    (FluidSolver.applyPressureStep scale p w uv idx).2.length = uv.2.length := by
  simp [FluidSolver.applyPressureStep, updAt]

theorem applyPressure_boundary (s : FluidSolver) (dt : ℚ)
    (hu : s.u.src.length = (s.w + 1) * s.h)
    (hv : s.v.src.length = s.w * (s.h + 1)) :
    FluidSolver.boundaryFacesZero (s.applyPressure dt) := by
  have hlen := pair_foldl_lengths
    (applyPressureStep_lengths (dt / (s.density * s.hx)) s.p s.w)
    (List.range (s.w * s.h)) (s.u.src, s.v.src)
  simp only [FluidSolver.applyPressure, FluidSolver.boundaryFacesZero]
  constructor
  · intro y hy
    constructor
    · apply foldl_setzero_mem (fun y => y * (s.w + 1))
        (fun y => s.w + y * (s.w + 1)) (List.range s.h) _ _ y
        (List.mem_range.2 hy) (Or.inl rfl)
      rw [hlen.1, hu]
      nlinarith
    · apply foldl_setzero_mem (fun y => y * (s.w + 1))
        (fun y => s.w + y * (s.w + 1)) (List.range s.h) _ _ y
        (List.mem_range.2 hy) (Or.inr rfl)
      rw [hlen.1, hu]
      nlinarith
  · intro x hx
    constructor
    · apply foldl_setzero_mem (fun x => x) (fun x => x + s.h * s.w)
        (List.range s.w) _ _ x (List.mem_range.2 hx) (Or.inl rfl)
      rw [hlen.2, hv]
      nlinarith
    · apply foldl_setzero_mem (fun x => x) (fun x => x + s.h * s.w)
        (List.range s.w) _ _ x (List.mem_range.2 hx) (Or.inr rfl)
      rw [hlen.2, hv]
      nlinarith

theorem update_p_eq (s : FluidSolver) (dt : ℚ)
    (hit : s.iteration_type = ITER_TYPE.ITER_JACOBI) :
    (s.update dt).p =
      jacobiSolve s.w s.h (dt / (s.density * s.hx * s.hx)) s.buildRhs.r 600 s.p := by
  have hcond : s.buildRhs.iteration_type = ITER_TYPE.ITER_JACOBI := hit
  simp only [FluidSolver.update]
  rw [if_pos hcond]
  rfl

/-!
The claim theorems.
-/

/-- C1: the claim states each of the three velocity evaluations of the
backward trace is converted to grid units by dividing by the cell size.
The code divides only the first two: on the constant field u = 1, v = 0
with cell size 1/2, tracing from (3, 3) with timestep 1, the code's trace
returns x = 13/9 (third sample used in world units), whereas the scheme
the claim describes returns x = 1. The code therefore does not implement
the claimed (and spec-intended) unit-consistent RK3. -/
theorem rk3_third_eval_not_divided :
    (onesField.rungeKutta3 3 3 1 onesField zerosField).1 = 13/9 ∧
    (onesField.rungeKutta3Claim 3 3 1 onesField zerosField).1 = 1 ∧
    (onesField.rungeKutta3 3 3 1 onesField zerosField).1 ≠
      (onesField.rungeKutta3Claim 3 3 1 onesField zerosField).1 := by
  with_unfolding_all exact of_decide_eq_true rfl

/-- C2 counterexample: a full `update` step on a divergence-free vortex
state leaves a nonzero value on a domain-boundary face (advection samples
interior values onto the `x = width` face of `u` after the projection's
zeroing), so the claim "every boundary face is exactly 0 after every full
step" is false. -/
theorem boundary_nonzero_after_full_step :
    ¬ FluidSolver.boundaryFacesZero (vortexState.update 1) := by
  with_unfolding_all exact of_decide_eq_true rfl

/-- C2 (amended): every domain-boundary face of both velocity fields is
exactly 0 immediately after the projection (`applyPressure`) phase of a
step; the subsequent advection may overwrite boundary faces, so the
guarantee holds after projection, not after the full step. -/
theorem boundary_zero_after_projection (s : FluidSolver) (dt : ℚ)
    (hu : s.u.src.length = (s.w + 1) * s.h)
    (hv : s.v.src.length = s.w * (s.h + 1)) :
    FluidSolver.boundaryFacesZero (s.applyPressure dt) :=
  applyPressure_boundary s dt hu hv

/-- C2 witness: the amended theorem applied to the concrete vortex state. -/
theorem boundary_zero_after_projection_witness :
    vortexState.u.src.length = (vortexState.w + 1) * vortexState.h ∧
    vortexState.v.src.length = vortexState.w * (vortexState.h + 1) ∧
    FluidSolver.boundaryFacesZero (vortexState.applyPressure 1) :=
  ⟨by decide, by decide,
   boundary_zero_after_projection vortexState 1 (by decide) (by decide)⟩

/-- C3: the Jacobi pressure solve invoked by `update` performs some number
`n ≤ 600` of sweeps; every sweep before the last had `maxDelta ≥ 1e-5`
(no premature stop), and if it stopped before exhausting the budget then
its final sweep had `maxDelta < 1e-5` (the early-stop condition); in both
cases `update` carries the resulting pressure field on to projection —
exhaustion is not an error path. -/
theorem pressure_solve_stopping_rule :
    ∀ (s : FluidSolver) (dt : ℚ), s.iteration_type = ITER_TYPE.ITER_JACOBI →
      ∃ n, n ≤ 600 ∧
        (s.update dt).p =
          sweepN s.w s.h (dt / (s.density * s.hx * s.hx)) s.buildRhs.r n s.p ∧
        (∀ k, k + 1 < n →
          ¬ (jacobiSweep s.w s.h (dt / (s.density * s.hx * s.hx)) s.buildRhs.r
              (sweepN s.w s.h (dt / (s.density * s.hx * s.hx)) s.buildRhs.r k s.p)).2
            < 1e-5) ∧
        (n < 600 → ∃ m, n = m + 1 ∧
          (jacobiSweep s.w s.h (dt / (s.density * s.hx * s.hx)) s.buildRhs.r
              (sweepN s.w s.h (dt / (s.density * s.hx * s.hx)) s.buildRhs.r m s.p)).2
            < 1e-5) := by
  intro s dt hit
  obtain ⟨n, hn, heq, hnot, hearly⟩ :=
    jacobiSolve_char s.w s.h (dt / (s.density * s.hx * s.hx)) s.buildRhs.r 600 s.p
  exact ⟨n, hn, by rw [update_p_eq s dt hit, heq], hnot, hearly⟩

/-- C3 witness: the stopping-rule theorem applied to a concrete solver. -/
theorem pressure_solve_stopping_rule_witness :
    solver22.iteration_type = ITER_TYPE.ITER_JACOBI ∧
    (∃ n, n ≤ 600 ∧
      (solver22.update 1).p =
        sweepN solver22.w solver22.h
          (1 / (solver22.density * solver22.hx * solver22.hx)) solver22.buildRhs.r
          n solver22.p ∧
      (∀ k, k + 1 < n →
        ¬ (jacobiSweep solver22.w solver22.h
            (1 / (solver22.density * solver22.hx * solver22.hx)) solver22.buildRhs.r
            (sweepN solver22.w solver22.h
              (1 / (solver22.density * solver22.hx * solver22.hx)) solver22.buildRhs.r
              k solver22.p)).2 < 1e-5) ∧
      (n < 600 → ∃ m, n = m + 1 ∧
        (jacobiSweep solver22.w solver22.h
            (1 / (solver22.density * solver22.hx * solver22.hx)) solver22.buildRhs.r
            (sweepN solver22.w solver22.h
              (1 / (solver22.density * solver22.hx * solver22.hx)) solver22.buildRhs.r
              m solver22.p)).2 < 1e-5)) :=
  ⟨rfl, pressure_solve_stopping_rule solver22 1 rfl⟩

/-- C4: the claim states `addInflow` accesses only cells with
`0 ≤ x < width`. On a field of width 2 and height 4 (the shape of the `_v`
quantity of a solver taller than wide) with the rectangle (0,0)-(4,4), the
loops visit the cell (x, y) = (2, 3): `x = 2` is not below the width, and
its flat index `x + y*width = 8` equals the buffer length, i.e. one past
the end of the 8-entry buffer (an out-of-bounds access in the C code,
whose inner loop bound is `min(ix1, _h)` instead of `min(ix1, _w)`). -/
theorem addInflow_accesses_beyond_width :
    ((2 : ℤ), (3 : ℤ)) ∈ vLikeField.addInflowCells 0 0 4 4 ∧
    ¬ ((2 : ℤ) < (vLikeField.w : ℤ)) ∧
    ((2 : ℤ) + 3 * (vLikeField.w : ℤ)).toNat = vLikeField.src.length := by
  with_unfolding_all exact of_decide_eq_true rfl

/-- C5: for ordered samples a ≤ b ≤ c ≤ d and x in [0,1], the 1D cubic
interpolation result lies within [min(a,b,c,d), max(a,b,c,d)] — the code
clamps the Catmull-Rom value to exactly that range. -/
theorem cerp_result_clamped :
    ∀ (a b c d x : ℚ), a ≤ b → b ≤ c → c ≤ d → 0 ≤ x → x ≤ 1 →
      min a (min b (min c d)) ≤ cerp1 a b c d x ∧
      cerp1 a b c d x ≤ max a (max b (max c d)) := by
  intro a b c d x _ _ _ _ _
  simp only [cerp1]
  constructor
  · exact le_min (le_max_right _ _) (le_trans (min_le_left _ _) (le_max_left _ _))
  · exact le_trans (min_le_right _ _) le_rfl

/-- C5 witness: the clamp theorem applied at a = 0, b = 1, c = 2, d = 3,
x = 1/2. -/
theorem cerp_result_clamped_witness :
    ((0:ℚ) ≤ 1 ∧ (1:ℚ) ≤ 2 ∧ (2:ℚ) ≤ 3 ∧ (0:ℚ) ≤ 1/2 ∧ (1/2:ℚ) ≤ 1) ∧
    min (0:ℚ) (min 1 (min 2 3)) ≤ cerp1 0 1 2 3 (1/2) ∧
    cerp1 0 1 2 3 (1/2) ≤ max (0:ℚ) (max 1 (max 2 3)) :=
  ⟨⟨by norm_num, by norm_num, by norm_num, by norm_num, by norm_num⟩,
   cerp_result_clamped 0 1 2 3 (1/2) (by norm_num) (by norm_num) (by norm_num)
     (by norm_num) (by norm_num)⟩

/-- C6: `addInflow` never decreases a cell's magnitude: at every buffer
position, either the value is left unchanged or it is replaced by a value
of strictly larger magnitude; in particular |after| ≥ |before|. This holds
for every field state, rectangle, injected value, and any behaviour of the
external square root. -/
theorem addInflow_magnitude_monotone :
    ∀ (sqrtFn : ℚ → ℚ) (q : FluidQuantity) (x0 y0 x1 y1 v : ℚ) (i : ℕ),
      |q.src.getD i 0| ≤ |(q.addInflow sqrtFn x0 y0 x1 y1 v).src.getD i 0| ∧
      ((q.addInflow sqrtFn x0 y0 x1 y1 v).src.getD i 0 = q.src.getD i 0 ∨
       |q.src.getD i 0| < |(q.addInflow sqrtFn x0 y0 x1 y1 v).src.getD i 0|) := by
  intro sqrtFn q x0 y0 x1 y1 v i
  have heq : (q.addInflow sqrtFn x0 y0 x1 y1 v).src =
      (q.addInflowCells x0 y0 x1 y1).foldl
        (FluidQuantity.addInflowStep sqrtFn q.hx x0 y0 x1 y1 v q.w) q.src := rfl
  rw [heq]
  rcases foldl_addInflowStep_pointwise sqrtFn q.hx x0 y0 x1 y1 v q.w
    (q.addInflowCells x0 y0 x1 y1) q.src i with h | h
  · exact ⟨le_of_eq (by rw [h]), Or.inl h⟩
  · exact ⟨le_of_lt h, Or.inr h⟩

/-- C7 counterexample: on a 2x2 field with values 0,1,2,3, bilinear
sampling at the exact world position of the grid point (1, 0) — an index
with 0 ≤ 1 < width — returns 999/1000 instead of the stored value 1,
because the coordinate clamp to `width - 1.001` moves the last grid line
inward. The claim fails for indices on the last row/column. -/
theorem lerp_grid_point_identity_fails_at_edge :
    1 < edgeField.w ∧ 0 < edgeField.h ∧
    edgeField.lerp2 ((1 : ℚ) + edgeField.ox) ((0 : ℚ) + edgeField.oy) ≠
      edgeField.atXY 1 0 := by
  with_unfolding_all exact of_decide_eq_true rfl

/-- C7 (amended): bilinear sampling at the exact world position of a grid
point returns that point's stored value for every index with
ix + 1 < width and iy + 1 < height (all points except the last row and
last column, where the 1.001 clamp interferes). -/
theorem lerp_grid_point_identity_interior (q : FluidQuantity) (ix iy : ℕ)
    (hx : ix + 1 < q.w) (hy : iy + 1 < q.h) :
    q.lerp2 ((ix : ℚ) + q.ox) ((iy : ℚ) + q.oy) = q.atXY ix iy := by
  have hxw : ((ix : ℕ) : ℚ) ≤ (q.w : ℚ) - 2 := by
    have h2 : ((ix : ℕ) : ℚ) + 2 ≤ (q.w : ℚ) := by exact_mod_cast hx
    linarith
  have hyh : ((iy : ℕ) : ℚ) ≤ (q.h : ℚ) - 2 := by
    have h2 : ((iy : ℕ) : ℚ) + 2 ≤ (q.h : ℚ) := by exact_mod_cast hy
    linarith
  simp only [FluidQuantity.lerp2]
  have e1 : (ix : ℚ) + q.ox - q.ox = (ix : ℚ) := by ring
  have e2 : (iy : ℚ) + q.oy - q.oy = (iy : ℚ) := by ring
  rw [e1, e2]
  have hclx : min (max ((ix : ℚ)) 0) ((q.w : ℚ) - 1.001) = (ix : ℚ) := by
    rw [max_eq_left (by positivity)]
    exact min_eq_left (by linarith)
  have hcly : min (max ((iy : ℚ)) 0) ((q.h : ℚ) - 1.001) = (iy : ℚ) := by
    rw [max_eq_left (by positivity)]
    exact min_eq_left (by linarith)
  rw [hclx, hcly, itrunc_natCast, itrunc_natCast]
  push_cast
  simp [lerp1_zero]

/-- C7 witness: the amended identity applied at the interior grid point
(0, 0) of the concrete 2x2 field. -/
theorem lerp_grid_point_identity_interior_witness :
    0 + 1 < edgeField.w ∧ 0 + 1 < edgeField.h ∧
    edgeField.lerp2 ((0 : ℚ) + edgeField.ox) ((0 : ℚ) + edgeField.oy) =
      edgeField.atXY 0 0 :=
  ⟨by decide, by decide,
   lerp_grid_point_identity_interior edgeField 0 0 (by decide) (by decide)⟩

/-- C8: the claim states construction with non-positive dimensions is
rejected. The constructor performs no validation: with width 0 it still
produces a solver — an empty density buffer, a 5-entry `u` buffer, and the
dimension fields as given (in the C code this path divides by zero in
`1.0/min(w, h)` and allocates degenerate buffers, undefined behavior
downstream, rather than failing fast). -/
theorem construct_accepts_zero_width :
    (FluidSolver.construct 0 5 1).w = 0 ∧
    (FluidSolver.construct 0 5 1).d.src = [] ∧
    (FluidSolver.construct 0 5 1).u.src.length = 5 := by
  with_unfolding_all exact of_decide_eq_true rfl

/-- C9: advection never creates new extrema: for a field whose dimensions
are at least 2 and whose buffer has the declared size, every value written
by `advect` into the next buffer lies within the min/max of the current
buffer, for every timestep and arbitrary velocity fields — each 1D cubic
interpolation is clamped to its own stencil, and every stencil sample is a
current-buffer value. -/
theorem advect_no_new_extrema :
    ∀ (q u v : FluidQuantity) (dt : ℚ), 2 ≤ q.w → 2 ≤ q.h →
      q.src.length = q.w * q.h →
      ∀ z ∈ (q.advect dt u v).dst, listMin q.src ≤ z ∧ z ≤ listMax q.src := by
  intro q u v dt hw hh hlen z hz
  simp only [FluidQuantity.advect] at hz
  obtain ⟨idx, _, hzz⟩ := List.mem_map.1 hz
  rw [← hzz]
  exact cerp2_bounds hw hh hlen _ _

/-- C9 witness: the no-new-extrema theorem applied to the concrete 2x2
field advected through itself with timestep 1. -/
theorem advect_no_new_extrema_witness :
    2 ≤ edgeField.w ∧ 2 ≤ edgeField.h ∧
    edgeField.src.length = edgeField.w * edgeField.h ∧
    ∀ z ∈ (edgeField.advect 1 edgeField edgeField).dst,
      listMin edgeField.src ≤ z ∧ z ≤ listMax edgeField.src :=
  ⟨by decide, by decide, by decide,
   advect_no_new_extrema edgeField edgeField edgeField 1 (by decide) (by decide)
     (by decide)⟩

/-- C10: the pressure buffer is zero-initialized at construction, and each
`update` computes its new pressure by running the Jacobi iteration
starting from the state's own pressure buffer — a warm start, with no
reset between steps: the first step starts from all zeros and later steps
start from whatever the previous solve left in `_p`. -/
theorem pressure_warm_start :
    (∀ (w h : ℕ) (d : ℚ), (FluidSolver.construct w h d).p = List.replicate (w * h) 0) ∧
    (∀ (s : FluidSolver) (dt : ℚ), s.iteration_type = ITER_TYPE.ITER_JACOBI →
      (s.update dt).p =
        jacobiSolve s.w s.h (dt / (s.density * s.hx * s.hx)) s.buildRhs.r 600 s.p) :=
  ⟨fun _ _ _ => rfl, fun s dt hit => update_p_eq s dt hit⟩

/-- C10 witness: the warm-start equation applied to a concrete solver. -/
theorem pressure_warm_start_witness :
    solver22.iteration_type = ITER_TYPE.ITER_JACOBI ∧
    (solver22.update 1).p =
      jacobiSolve solver22.w solver22.h
        (1 / (solver22.density * solver22.hx * solver22.hx))
        solver22.buildRhs.r 600 solver22.p :=
  ⟨rfl, pressure_warm_start.2 solver22 1 rfl⟩
